import Mathlib

/-!
Verification development for the skill-store dataset cache-and-query engine
(src/lib/server/skillStore.js). The JavaScript module is shallowly embedded:
rows coming out of the SQLite layer are association lists of JavaScript
values, the module-level cache globals become an explicit state record, and
the asynchronous load functions become pure functions over oracles that
describe the outcomes of the file-system and network operations they await.
-/

namespace SkillStore

/-- A JavaScript value as it can appear in a row object produced by the
sql.js statement API (a column value is a number, a string, or null; a key
that is not present on the object reads as undefined). -/
inductive JsVal where
  | undefined
  | null
  | num (n : Int)
  | str (s : String)
deriving DecidableEq

/-- JavaScript truthiness for the values of the row model: undefined, null,
the number 0 and the empty string are falsy. -/
def jsTruthy : JsVal → Bool
  | .undefined => false
  | .null => false
  | .num n => n != 0
  | .str s => s != ""

/-- The JavaScript logical-or operator on row values: the left operand when
it is truthy, otherwise the right operand. -/
def jsOr (a b : JsVal) : JsVal :=
  if jsTruthy a then a else b

/-- Digits of a natural number, most significant first, accumulated onto
acc; fuel bounds the recursion and n + 1 fuel always suffices. -/
def natToChars : Nat → Nat → List Char → List Char
  | 0, _, acc => acc
  | fuel + 1, n, acc =>
    let d := Char.ofNat (48 + n % 10)
    if n < 10 then d :: acc else natToChars fuel (n / 10) (d :: acc)

/-- Decimal string of a natural number, as produced by the JavaScript
String conversion of a non-negative integer. -/
def natToString (n : Nat) : String :=
  String.mk (natToChars (n + 1) n [])

/-- Decimal string of an integer, as produced by the JavaScript String
conversion of an integral number. -/
def intToString (n : Int) : String :=
  if n < 0 then String.mk (Char.ofNat 45 :: natToChars ((-n).toNat + 1) (-n).toNat [])
  else String.mk (natToChars (n.toNat + 1) n.toNat [])

/-- The JavaScript String conversion applied to a row value. -/
def jsToString : JsVal → String
  | .undefined => "undefined"
  | .null => "null"
  | .num n => intToString n
  | .str s => s

/-- A row object as handed to normalizeSkill: an association list from
column names to values; absent keys read as undefined. -/
abbrev Row := List (String × JsVal)

/-- Property access row[key] with the undefined default of JavaScript
objects. -/
def getField (row : Row) (key : String) : JsVal :=
  (List.lookup key row).getD .undefined

/-- UTF-8 code units of the character with code point n, as byte values. -/
def utf8BytesOf (n : Nat) : List Nat :=
  if n < 0x80 then [n]
  else if n < 0x800 then [0xC0 + n / 0x40, 0x80 + n % 0x40]
  else if n < 0x10000 then
    [0xE0 + n / 0x1000, 0x80 + (n / 0x40) % 0x40, 0x80 + n % 0x40]
  else
    [0xF0 + n / 0x40000, 0x80 + (n / 0x1000) % 0x40, 0x80 + (n / 0x40) % 0x40, 0x80 + n % 0x40]

/-- UTF-8 code units of a character, as a list of byte values. -/
def utf8Bytes (c : Char) : List Nat :=
  utf8BytesOf c.toNat

/-- Characters left unescaped by the JavaScript encodeURIComponent
function: ASCII alphanumerics and - _ . ! ~ * quote ( ). -/
def isUnreservedURIChar (c : Char) : Bool :=
  c.isAlpha || c.isDigit || c == '-' || c == '_' || c == '.' || c == '!' ||
    c == '~' || c == '*' || c == Char.ofNat 39 || c == '(' || c == ')'

/-- Uppercase hexadecimal digit for a value below 16. -/
def hexDigitChar (n : Nat) : Char :=
  if n < 10 then Char.ofNat (48 + n) else Char.ofNat (55 + n)

/-- Percent-escaping of one character, per encodeURIComponent: unreserved
characters stay, every other character becomes the percent-escapes of its
UTF-8 bytes. -/
def encodeChar (c : Char) : List Char :=
  if isUnreservedURIChar c then [c]
  else (utf8Bytes c).foldr
    (fun b acc => '%' :: hexDigitChar (b / 16) :: hexDigitChar (b % 16) :: acc) []

/-- The JavaScript encodeURIComponent function. -/
def encodeURIComponent (s : String) : String :=
  String.mk (s.data.foldr (fun c acc => encodeChar c ++ acc) [])

/-- Value of one hexadecimal digit character, in either letter case. -/
def hexVal (c : Char) : Option Nat :=
  if '0' ≤ c && c ≤ '9' then some (c.toNat - 48)
  else if 'a' ≤ c && c ≤ 'f' then some (c.toNat - 87)
  else if 'A' ≤ c && c ≤ 'F' then some (c.toNat - 55)
  else none

/-- First phase of decodeURIComponent: replace every percent-escape by its
byte and every plain character by its UTF-8 bytes; none models the URIError
thrown on a malformed escape. -/
def percentDecodeBytes : List Char → Option (List Nat)
  | [] => some []
  | '%' :: a :: b :: rest =>
    match hexVal a, hexVal b, percentDecodeBytes rest with
    | some ha, some hb, some bs => some ((ha * 16 + hb) :: bs)
    | _, _, _ => none
  | '%' :: _ => none
  | c :: rest => (percentDecodeBytes rest).map (fun bs => utf8Bytes c ++ bs)

/-- Whether a byte is a UTF-8 continuation byte. -/
def isCont (b : Nat) : Bool := 0x80 ≤ b && b ≤ 0xBF

/-- Strict UTF-8 decoding of a byte list; none models the URIError thrown
by decodeURIComponent on an invalid sequence. -/
def utf8Decode : List Nat → Option (List Char)
  | [] => some []
  | b :: rest =>
    if b < 0x80 then
      (utf8Decode rest).map (fun cs => Char.ofNat b :: cs)
    else if 0xC2 ≤ b && b ≤ 0xDF then
      match rest with
      | b2 :: rest2 =>
        if isCont b2 then
          (utf8Decode rest2).map (fun cs => Char.ofNat ((b - 0xC0) * 0x40 + (b2 - 0x80)) :: cs)
        else none
      | [] => none
    else if 0xE0 ≤ b && b ≤ 0xEF then
      match rest with
      | b2 :: b3 :: rest3 =>
        let n := (b - 0xE0) * 0x1000 + (b2 - 0x80) * 0x40 + (b3 - 0x80)
        if isCont b2 && isCont b3 && 0x800 ≤ n && !(0xD800 ≤ n && n ≤ 0xDFFF) then
          (utf8Decode rest3).map (fun cs => Char.ofNat n :: cs)
        else none
      | _ => none
    else if 0xF0 ≤ b && b ≤ 0xF4 then
      match rest with
      | b2 :: b3 :: b4 :: rest4 =>
        let n := (b - 0xF0) * 0x40000 + (b2 - 0x80) * 0x1000 + (b3 - 0x80) * 0x40 + (b4 - 0x80)
        if isCont b2 && isCont b3 && isCont b4 && 0x10000 ≤ n && n ≤ 0x10FFFF then
          (utf8Decode rest4).map (fun cs => Char.ofNat n :: cs)
        else none
      | _ => none
    else none

/-- The JavaScript decodeURIComponent function; none models a thrown
URIError. -/
def decodeURIComponent (s : String) : Option String :=
  ((percentDecodeBytes s.data).bind utf8Decode).map String.mk

/-- ASCII lowering, the case folding applied by the SQLite LIKE operator. -/
def lowerAscii (c : Char) : Char :=
  if 'A' ≤ c && c ≤ 'Z' then Char.ofNat (c.toNat + 32) else c

/-- The SQLite LIKE pattern matcher on character lists: percent matches any
run, underscore any single character, other characters match up to ASCII
case. Each recursive step consumes at least one pattern or subject symbol,
so a fuel of pattern length plus subject length plus one always suffices
and the zero-fuel case is unreachable from likeMatchStr. -/
def likeMatchFuel : Nat → List Char → List Char → Bool
  | 0, _, _ => false
  | fuel + 1, p, s =>
    match p, s with
    | [], [] => true
    | [], _ :: _ => false
    | '%' :: ps, [] => likeMatchFuel fuel ps []
    | '%' :: ps, c :: s2 =>
      likeMatchFuel fuel ps (c :: s2) || likeMatchFuel fuel ('%' :: ps) s2
    | '_' :: ps, _ :: s2 => likeMatchFuel fuel ps s2
    | '_' :: _, [] => false
    | pc :: ps, c :: s2 => (lowerAscii pc == lowerAscii c) && likeMatchFuel fuel ps s2
    | _ :: _, [] => false

/-- LIKE on strings: pattern first, subject second. -/
def likeMatchStr (pat s : String) : Bool :=
  likeMatchFuel (pat.data.length + s.data.length + 1) pat.data s.data

/-- ASCII whitespace as trimmed around tokens. -/
def isSpaceChar (c : Char) : Bool :=
  c == ' ' || c == '\t' || c == '\n' || c == '\r'

/-- Drops the leading characters satisfying p. -/
def dropLeading (p : Char → Bool) : List Char → List Char
  | [] => []
  | c :: rest => if p c then dropLeading p rest else c :: rest

/-- Trims whitespace from both ends of a character list. -/
def trimChars (cs : List Char) : List Char :=
  (dropLeading isSpaceChar (dropLeading isSpaceChar cs).reverse).reverse

/-- Splits a character list on commas; the empty input yields one empty
token, as the JavaScript split does. -/
def splitComma (cs : List Char) : List (List Char) :=
  cs.foldr
    (fun c acc =>
      match acc with
      | cur :: rest => if c == ',' then [] :: cur :: rest else (c :: cur) :: rest
      | [] => [[c]])
    [[]]

/-- Strips one pair of surrounding square brackets from a serialized list. -/
def stripBracketsChars (cs : List Char) : List Char :=
  if cs.head? == some '[' && cs.getLast? == some ']' then (cs.drop 1).dropLast else cs

/-- Strips one pair of surrounding double quotes from a token. -/
def stripQuotesChars (cs : List Char) : List Char :=
  if cs.length ≥ 2 && cs.head? == some '"' && cs.getLast? == some '"' then
    (cs.drop 1).dropLast
  else cs

/-- Modelled from the spec: parseArrayValue lives in src/lib/utils, which is
not part of the sources under src/. Spec section 4.3: an array-valued raw
field (a delimited string or a serialized list) is parsed into an ordered
sequence of trimmed non-empty strings; unparseable or absent input yields
the empty sequence. -/
def parseArrayValue (v : JsVal) : List String :=
  match v with
  | .str s =>
    ((splitComma (stripBracketsChars (trimChars s.data))).map
      (fun t => String.mk (stripQuotesChars (trimChars t)))).filter (fun t => t != "")
  | _ => []

/-- Modelled from the spec: pickCategory lives in src/lib/utils, which is
not part of the sources under src/. Spec sections 4.3 and 9: a best-effort
single-category picker over the raw categories value — the first parsed
category when one exists, else a fallback label. -/
def pickCategory (v : JsVal) : String :=
  (parseArrayValue v).headD "other"

/-- The canonical record produced by normalizeSkill. Scalar fields keep the
JavaScript value selected by the logical-or chains of the source; the
identifier is always a string. -/
structure SkillRecord where
  id : JsVal
  identifier : String
  skill_name : JsVal
  fromRepo : JsVal
  skillPath : JsVal
  repostars : JsVal
  tagline : JsVal
  tags : List String
  tags_en : List String
  categories : List String
  category : String
  description : JsVal
  description_zh : JsVal
  description_en : JsVal
  use_case : JsVal
  use_case_en : JsVal
  download_url : JsVal
  skill_md_content : JsVal
  skill_md_content_translation : JsVal
  file_tree : JsVal
  how_to_install : JsVal
  created_at : JsVal
  updated_at : JsVal
deriving DecidableEq

/-- Direct embedding of normalizeSkill(row, index) from
src/lib/server/skillStore.js lines 74-115. -/
def normalizeSkill (row : Row) (index : Nat) : SkillRecord :=
  let tags := parseArrayValue (getField row "tags")
  let tagsEn := parseArrayValue (jsOr (getField row "tags_en") (getField row "tagsEn"))
  let categories := parseArrayValue (getField row "categories")
  let skillName :=
    jsOr (getField row "skill_name")
      (jsOr (getField row "skillName") (jsOr (getField row "name") (.str "")))
  let descriptionZh :=
    jsOr (getField row "description_zh")
      (jsOr (getField row "descriptionZh") (jsOr (getField row "description") (.str "")))
  let descriptionEn :=
    jsOr (getField row "description_en") (jsOr (getField row "descriptionEn") (.str ""))
  let useCaseEn :=
    jsOr (getField row "use_case_en") (jsOr (getField row "useCaseEn") (.str ""))
  let idVal := getField row "id"
  let identifier :=
    if idVal != .undefined && idVal != .null then jsToString idVal
    else if jsTruthy skillName then encodeURIComponent (jsToString skillName)
    else natToString (index + 1)
  { id := if idVal != .undefined && idVal != .null then idVal else .str identifier
    identifier := identifier
    skill_name := skillName
    fromRepo := jsOr (getField row "fromRepo") (jsOr (getField row "from_repo") (.str ""))
    skillPath := jsOr (getField row "skillPath") (jsOr (getField row "skill_path") (.str ""))
    repostars :=
      jsOr (getField row "repostars")
        (jsOr (getField row "repoStars") (jsOr (getField row "stars") (.num 0)))
    tagline := jsOr (getField row "tagline") (.str "")
    tags := tags
    tags_en := tagsEn
    categories := categories
    category :=
      match categories.head? with
      | some c => if c != "" then c else pickCategory (getField row "categories")
      | none => pickCategory (getField row "categories")
    description := descriptionZh
    description_zh := descriptionZh
    description_en := descriptionEn
    use_case := jsOr (getField row "use_case") (jsOr (getField row "useCase") (.str ""))
    use_case_en := useCaseEn
    download_url :=
      jsOr (getField row "download_url") (jsOr (getField row "downloadUrl") (.str ""))
    skill_md_content :=
      jsOr (getField row "skill_md_content") (jsOr (getField row "skillMdContent") (.str ""))
    skill_md_content_translation :=
      jsOr (getField row "skill_md_content_translation")
        (jsOr (getField row "skillMdContentTranslation") (.str ""))
    file_tree := jsOr (getField row "file_tree") (jsOr (getField row "fileTree") (.str ""))
    how_to_install :=
      jsOr (getField row "how_to_install") (jsOr (getField row "howToInstall") (.str ""))
    created_at := jsOr (getField row "created_at") (jsOr (getField row "createdAt") (.str ""))
    updated_at := jsOr (getField row "updated_at") (jsOr (getField row "updatedAt") (.str "")) }

/-- Key-precedence resolution as the spec describes it: try the keys in
order, return the first truthy value, else the default. -/
def resolveChain (row : Row) (keys : List String) (dflt : JsVal) : JsVal :=
  keys.foldr (fun k acc => jsOr (getField row k) acc) dflt

/-- Insertion into a list sorted by the boolean relation le. -/
def insertBy {α : Type} (le : α → α → Bool) (x : α) : List α → List α
  | [] => [x]
  | y :: ys => if le x y then x :: y :: ys else y :: insertBy le x ys

/-- Insertion sort by the boolean relation le, the model of an SQL ORDER BY
over in-memory rows. -/
def isortBy {α : Type} (le : α → α → Bool) (l : List α) : List α :=
  l.foldr (insertBy le) []

/-- The parsed contents of one skill.db file: the user tables with their
rows, keyed by table name. -/
structure Database where
  tables : List (String × List Row)
deriving DecidableEq

/-- Names of the tables of a database. -/
def tableNames (db : Database) : List String :=
  db.tables.map Prod.fst

/-- Rows of the named table, empty when the table is absent. -/
def tableRows (db : Database) (t : String) : List Row :=
  (List.lookup t db.tables).getD []

/-- Table names that survive the sqlite_master filter of selectTableName:
the query keeps names where name NOT LIKE a pattern excluding system
tables. -/
def nonSystemNames (db : Database) : List String :=
  (tableNames db).filter (fun n => !likeMatchStr "sqlite_%" n)

/-- Lexicographic comparison of character lists by code point, the order
of the BINARY collation SQLite applies in ORDER BY name (UTF-8 byte order
coincides with code-point order). -/
def charListLe : List Char → List Char → Bool
  | [], _ => true
  | _ :: _, [] => false
  | a :: as, b :: bs =>
    if a.toNat < b.toNat then true
    else if b.toNat < a.toNat then false
    else charListLe as bs

/-- Lexicographic string comparison under the BINARY collation. -/
def strLe (a b : String) : Bool :=
  charListLe a.data b.data

/-- Core of selectTableName over the already-filtered list of non-system
table names (src/lib/server/skillStore.js lines 52-64): the SQL sorts the
names ascending, then the exact name skills is preferred, then skill, then
names[0] coerced through the JavaScript logical-or with null — so a first
name that is the empty string (falsy) reports no table, as does an empty
list. -/
def selectFromNames (names : List String) : Option String :=
  let sorted := isortBy strLe names
  if sorted.contains "skills" then some "skills"
  else if sorted.contains "skill" then some "skill"
  else
    match sorted.head? with
    | none => none
    | some n => if n == "" then none else some n

/-- Embedding of selectTableName(db). -/
def selectTableName (db : Database) : Option String :=
  selectFromNames (nonSystemNames db)

/-- Error values thrown by the embedded module. -/
inductive JsError where
  | noTable
  | fetchFailed (status : Nat)
  | ioError (msg : String)
  | uriError
deriving DecidableEq

/-- The module-level cache metadata (src/lib/server/skillStore.js lines
10-16). -/
structure CacheMeta where
  source : String
  etag : String
  lastModified : String
  lastChecked : Int
  mtimeMs : Int
deriving DecidableEq

/-- The module-level cache globals cachedDb, cachedTable and cachedMeta as
one explicit state record. -/
structure CacheState where
  cachedDb : Option Database
  cachedTable : Option String
  meta : CacheMeta
deriving DecidableEq

/-- Embedding of setCachedDb(db, table, meta): replaces the cached handle
(the close() call on the old handle is resource management with no
observable value) and overwrites the metadata; every caller passes a full
metadata record, so the object spread amounts to replacement. -/
def setCachedDb (st : CacheState) (db : Database) (table : String) (m : CacheMeta) :
    CacheState :=
  { st with cachedDb := some db, cachedTable := some table, meta := m }

/-- Embedding of buildDbFromBuffer(buffer, meta) (lines 117-126): the bytes
denote a parsed database; when no table is discoverable the load fails with
the no-table error, otherwise the cache is replaced. -/
def buildDbFromBuffer (buffer : Database) (m : CacheMeta) (st : CacheState) :
    Except JsError (Database × CacheState) :=
  match selectTableName buffer with
  | none => .error .noTable
  | some t => .ok (buffer, setCachedDb st buffer t m)

/-- Outcomes of the file-system operations awaited by loadLocalDb: the
stat result (modification time) and the file contents. -/
structure LocalEnv where
  statResult : Except JsError Int
  readResult : Except JsError Database

/-- Fresh part of loadLocalDb: read the file and rebuild the cache. -/
def loadLocalFresh (env : LocalEnv) (now : Int) (st : CacheState) (dbPath : String)
    (mtime : Int) : Except JsError (Database × CacheState) :=
  match env.readResult with
  | .error e => .error e
  | .ok buffer =>
    buildDbFromBuffer buffer
      { source := dbPath, etag := "", lastModified := "", lastChecked := now,
        mtimeMs := mtime } st

/-- Embedding of loadLocalDb(dbPath) (lines 128-146): stat the file; when a
cached database exists for the same path with the same modification time,
refresh lastChecked only; otherwise read and rebuild. Failures of stat,
read, or rebuild are not caught. -/
def loadLocalDb (env : LocalEnv) (now : Int) (st : CacheState) (dbPath : String) :
    Except JsError (Database × CacheState) :=
  match env.statResult with
  | .error e => .error e
  | .ok mtime =>
    match st.cachedDb with
    | some db =>
      if st.meta.source == dbPath && st.meta.mtimeMs == mtime then
        .ok (db, { st with meta := { st.meta with lastChecked := now } })
      else loadLocalFresh env now st dbPath mtime
    | none => loadLocalFresh env now st dbPath mtime

/-- An HTTP response as observed through the fetch API: status, the two
validator headers (the source coerces an absent header to the empty
string), and the parsed body bytes. -/
structure HttpResponse where
  status : Nat
  etag : String
  lastModified : String
  body : Database
deriving DecidableEq

/-- The ok getter of a fetch Response: status in the 2xx range. -/
def respOk (r : HttpResponse) : Bool :=
  200 ≤ r.status && r.status < 300

/-- Outcomes of the network operations awaited by loadRemoteDb: the HEAD
request (none models a thrown network error, which the source swallows),
the conditional GET of revalidateRemoteDb, and the unconditional GET of the
fresh-load path. -/
structure RemoteEnv where
  head : Option HttpResponse
  condGet : Except JsError HttpResponse
  plainGet : Except JsError HttpResponse

/-- Result of revalidateRemoteDb: either not-modified with the validators
to record, or a fresh buffer with its validators. -/
inductive RevalResult where
  | notModified (etag lastModified : String)
  | fresh (buffer : Database) (etag lastModified : String)
deriving DecidableEq

/-- The GET step of revalidateRemoteDb (lines 189-209): a 304 reports
not-modified echoing the cached validators, a non-2xx terminal response
fails, a 2xx response yields the body and its validators. -/
def revalGetStep (get : Except JsError HttpResponse) (meta : CacheMeta) :
    Except JsError RevalResult :=
  match get with
  | .error e => .error e
  | .ok r =>
    if r.status == 304 then .ok (.notModified meta.etag meta.lastModified)
    else if !respOk r then .error (.fetchFailed r.status)
    else .ok (.fresh r.body r.etag r.lastModified)

/-- The validator comparison of the HEAD short-circuit (lines 181-184): a
present returned etag equal to the cached etag, or a present returned
last-modified equal to the cached last-modified. -/
def headValidatorMatch (h : HttpResponse) (meta : CacheMeta) : Bool :=
  (h.etag != "" && h.etag == meta.etag) ||
    (h.lastModified != "" && h.lastModified == meta.lastModified)

/-- Embedding of revalidateRemoteDb(dbUrl) (lines 148-210). The
conditional headers are derived from meta and only influence the oracle
responses; a thrown HEAD is the none case and falls through to the GET
step, a HEAD 304 echoes the cached validators, a 2xx HEAD whose present
etag or last-modified validator equals the cached one short-circuits to
not-modified, and otherwise the GET step decides. -/
def revalidateRemoteDb (head : Option HttpResponse) (get : Except JsError HttpResponse)
    (meta : CacheMeta) : Except JsError RevalResult :=
  match head with
  | none => revalGetStep get meta
  | some h =>
    if h.status == 304 then .ok (.notModified meta.etag meta.lastModified)
    else if respOk h && headValidatorMatch h meta then
      .ok (.notModified h.etag h.lastModified)
    else revalGetStep get meta

/-- Fresh part of loadRemoteDb (lines 242-256): unconditional GET, failing
on a non-2xx response, then rebuild. -/
def remoteFresh (env : RemoteEnv) (now : Int) (st : CacheState) (dbUrl : String) :
    Except JsError (Database × CacheState) :=
  match env.plainGet with
  | .error e => .error e
  | .ok r =>
    if !respOk r then .error (.fetchFailed r.status)
    else
      buildDbFromBuffer r.body
        { source := dbUrl, etag := r.etag, lastModified := r.lastModified,
          lastChecked := now, mtimeMs := 0 } st

/-- Embedding of loadRemoteDb(dbUrl) (lines 212-256). With a cached
database for the same URL the awaited revalidateRemoteDb call runs inside
a try block, so its failure is absorbed: the catch records lastChecked and
returns the cached database. A not-modified outcome refreshes validators
and lastChecked. The fresh-buffer branch, however, returns the
buildDbFromBuffer promise without await (line 226): the try block has
already been exited when that promise settles, so a rebuild failure
bypasses the catch and propagates even though a dataset is cached. Without
a cached database for the URL the fresh path runs uncaught. -/
def loadRemoteDb (env : RemoteEnv) (now : Int) (st : CacheState) (dbUrl : String) :
    Except JsError (Database × CacheState) :=
  match st.cachedDb with
  | some db =>
    if st.meta.source == dbUrl then
      match revalidateRemoteDb env.head env.condGet st.meta with
      | .error _ => .ok (db, { st with meta := { st.meta with lastChecked := now } })
      | .ok (.notModified etag lm) =>
        .ok (db, { st with meta :=
          { st.meta with etag := etag, lastModified := lm, lastChecked := now } })
      | .ok (.fresh buffer etag lm) =>
        buildDbFromBuffer buffer
          { source := dbUrl, etag := etag, lastModified := lm, lastChecked := now,
            mtimeMs := 0 } st
    else remoteFresh env now st dbUrl
  | none => remoteFresh env now st dbUrl

/-- Table resolution used by the three query operations: the cached table
name when it is set and truthy, else table discovery on the database. -/
def resolveTable (ct : Option String) (db : Database) : Option String :=
  match ct with
  | some t => if t == "" then selectTableName db else some t
  | none => selectTableName db

/-- A column value under the SQLite LIKE operator: NULL never matches,
numbers are compared through their text form. -/
def likeVal (pat : String) (v : JsVal) : Bool :=
  match v with
  | .str s => likeMatchStr pat s
  | .num n => likeMatchStr pat (intToString n)
  | _ => false

/-- The nine text columns searched by the q predicate of buildWhereClause
(lines 296-311). -/
def searchColumns : List String :=
  ["skill_name", "tagline", "description", "description_zh", "description_en",
    "use_case", "use_case_en", "tags", "tags_en"]

/-- Embedding of the WHERE clause built by buildWhereClause({q, category})
(lines 289-315) as a row predicate: a category-substring condition when
category is set, ANDed with an OR-group of substring conditions over the
nine text columns when q is set. -/
def matchesWhere (q category : String) (row : Row) : Bool :=
  (category == "" || likeVal ("%" ++ category ++ "%") (getField row "categories")) &&
    (q == "" || searchColumns.any (fun c => likeVal ("%" ++ q ++ "%") (getField row c)))

/-- Storage-class rank used by SQLite cross-type comparison: NULL, then
numbers, then text. -/
def valRank : JsVal → Nat
  | .undefined => 0
  | .null => 0
  | .num _ => 1
  | .str _ => 2

/-- Embedding of buildOrderClause(sort) (lines 317-325) as a comparison on
column values: within a storage class the natural order, across storage
classes NULL before numbers before text. -/
def sqlValLe (a b : JsVal) : Bool :=
  match a, b with
  | .num x, .num y => x ≤ y
  | .str x, .str y => strLe x y
  | _, _ => valRank a ≤ valRank b

/-- Ordering of the result rows for a sort key. -/
def orderRows (sort : String) (rows : List Row) : List Row :=
  if sort == "stars" then
    isortBy (fun a b => sqlValLe (getField b "repostars") (getField a "repostars")) rows
  else if sort == "oldest" then
    isortBy (fun a b => sqlValLe (getField a "updated_at") (getField b "updated_at")) rows
  else
    isortBy (fun a b => sqlValLe (getField b "updated_at") (getField a "updated_at")) rows

/-- SQLite LIMIT and OFFSET semantics on the ordered row list: a negative
offset skips nothing, a negative limit returns everything remaining. -/
def sqlLimitOffset (rows : List Row) (limit offset : Int) : List Row :=
  let dropped := rows.drop offset.toNat
  if limit < 0 then dropped else dropped.take limit.toNat

/-- The columns of the page SELECT of listSkills (line 353). -/
def listCols : List String :=
  ["id", "skill_name", "repostars", "tagline", "tags", "tags_en", "categories",
    "updated_at"]

/-- Projection of a row to the selected columns, as getAsObject presents
it. -/
def projectRow (cols : List String) (r : Row) : Row :=
  cols.map (fun c => (c, getField r c))

/-- Result shape of listSkills. -/
structure ListResult where
  items : List SkillRecord
  total : Nat
  page : Int
  pageSize : Int
deriving DecidableEq

/-- Embedding of the query part of listSkills (lines 327-365) over an
already-loaded database: resolve the table (empty shape when none), count
the rows matching the WHERE predicate, page the ordered matching rows with
offset max 0 ((page - 1) * pageSize) and limit pageSize, and normalize each
returned row with its position on the page. -/
def listSkills (db : Database) (ct : Option String) (q category : String)
    (page pageSize : Int) (sort : String) : ListResult :=
  match resolveTable ct db with
  | none => { items := [], total := 0, page := page, pageSize := pageSize }
  | some t =>
    let filtered := (tableRows db t).filter (matchesWhere q category)
    let total := filtered.length
    let offset := max 0 ((page - 1) * pageSize)
    let pageRows := sqlLimitOffset (orderRows sort filtered) pageSize offset
    let items := (pageRows.enum).map (fun p => normalizeSkill (projectRow listCols p.2) p.1)
    { items := items, total := total, page := page, pageSize := pageSize }

/-- Whether a decoded identifier consists of one or more decimal digits,
the test performed by the digit regular expression of getSkillByIdentifier. -/
def digitsOnly (s : String) : Bool :=
  !s.data.isEmpty && s.data.all Char.isDigit

/-- Numeric value of a digit string, the JavaScript Number conversion on a
match of the digit regular expression. -/
def digitsToInt (s : String) : Int :=
  Int.ofNat (s.data.foldl (fun a c => a * 10 + (c.toNat - 48)) 0)

/-- Embedding of the query part of getSkillByIdentifier(identifier) (lines
367-390) over an already-loaded database: null when no table resolves,
otherwise URL-decode the identifier (an undecodable one throws), route a
purely-decimal decoded string to a numeric id lookup and anything else to
an exact skill_name lookup, take at most one row, and normalize it. -/
def getSkillByIdentifier (db : Database) (ct : Option String) (identifier : String) :
    Except JsError (Option SkillRecord) :=
  match resolveTable ct db with
  | none => .ok none
  | some t =>
    match decodeURIComponent identifier with
    | none => .error .uriError
    | some decoded =>
      let pred : Row → Bool :=
        if digitsOnly decoded then
          fun r => getField r "id" == .num (digitsToInt decoded)
        else
          fun r => getField r "skill_name" == .str decoded
      match ((tableRows db t).filter pred).head? with
      | none => .ok none
      | some r => .ok (some (normalizeSkill r 0))

/-- Property names every plain object inherits from Object.prototype;
reading one of them on the counts object without an own property of that
name yields the inherited function, a truthy non-number. -/
def protoProps : List String :=
  ["constructor", "hasOwnProperty", "isPrototypeOf", "propertyIsEnumerable",
    "toLocaleString", "toString", "valueOf"]

/-- A value stored in an own property of the counts object: a number, or
the string produced when the increment is applied to a truthy non-number
(an inherited function, or an already-corrupted string) — then x + 1 is
string concatenation; the exact text is engine-dependent and never a
number, which is all the development relies on. -/
inductive CountVal where
  | num (n : Nat)
  | corrupt
deriving DecidableEq

/-- Result shape of getSkillSummary; counts is the plain object used as a
category-to-count table, own properties in insertion order. -/
structure Summary where
  total : Nat
  counts : List (String × CountVal)
deriving DecidableEq

/-- The expression (x || 0) + 1 applied to an existing own value: a number
is incremented (0 is falsy and also yields 1); a corrupted string is truthy
and concatenation yields a string again. -/
def incVal : CountVal → CountVal
  | .num n => .num (n + 1)
  | .corrupt => .corrupt

/-- The increment on the own properties of the counts object for a key
other than the accessor property name: an existing own property is updated
in place; an absent one is created, initialized from the inherited read —
a name inherited from Object.prototype reads as a truthy function, so
(x || 0) + 1 concatenates and stores a string, any other name reads as
undefined and stores the number 1. -/
def bumpOwn : List (String × CountVal) → String → List (String × CountVal)
  | [], k => [(k, if protoProps.contains k then .corrupt else .num 1)]
  | (k2, v) :: rest, k =>
    if k2 == k then (k2, incVal v) :: rest else (k2, v) :: bumpOwn rest k

/-- One execution of counts[category] = (counts[category] || 0) + 1 on the
plain counts object (line 404): the key proto-accessor name hits the
inherited setter of Object.prototype, which ignores a non-object value and
creates no own property; every other key updates the own properties as
bumpOwn does. -/
def bumpCount (counts : List (String × CountVal)) (k : String) :
    List (String × CountVal) :=
  if k == "__proto__" then counts else bumpOwn counts k

/-- The counts accumulation of getSkillSummary over the scanned rows, for
an arbitrary single-category picker. -/
def summaryCounts (pick : JsVal → String) (rows : List Row) :
    List (String × CountVal) :=
  rows.foldl (fun acc r => bumpCount acc (pick (getField r "categories"))) []

/-- Embedding of the query part of getSkillSummary() (lines 392-407) over
an already-loaded database: the empty summary when no table resolves, else
the row count together with the per-category occurrence counts obtained by
applying the single-category picker to every categories value. -/
def getSkillSummary (db : Database) (ct : Option String) : Summary :=
  match resolveTable ct db with
  | none => { total := 0, counts := [] }
  | some t =>
    let rows := tableRows db t
    { total := rows.length, counts := summaryCounts pickCategory rows }

/-- The part of the module state that getDb (lines 258-287) consults: the
presence of a cached database, the source key and check time of the cached
metadata, whether a loading promise is pending, and a ghost counter of the
load operations started. The counter also names the pending promise, so
equal outcome values mean the callers share one promise. -/
structure FlightState where
  cached : Option Nat
  source : String
  lastChecked : Int
  loading : Bool
  loadsStarted : Nat
deriving DecidableEq

/-- The needsCheck condition of getDb: no cached database, a changed source
key, or an elapsed revalidation interval. -/
def needsCheck (now revalidateMs : Int) (key : String) (st : FlightState) : Bool :=
  st.cached.isNone || st.source != key || (now - st.lastChecked > revalidateMs)

/-- What one caller of getDb observes: the cached database served directly,
or the pending load promise it awaits, named by the load counter. -/
inductive CallOutcome where
  | cachedHit
  | awaitLoad (loadId : Nat)
deriving DecidableEq

/-- One call to getDb as a state transition: a fresh-enough cache is served
directly; otherwise the caller receives the pending promise, creating it
(and with it the single underlying load) only when none is pending. -/
def getDbStep (now revalidateMs : Int) (key : String) (st : FlightState) :
    FlightState × CallOutcome :=
  if !needsCheck now revalidateMs key st && st.cached.isSome then (st, .cachedHit)
  else if st.loading then (st, .awaitLoad st.loadsStarted)
  else ({ st with loading := true, loadsStarted := st.loadsStarted + 1 },
    .awaitLoad (st.loadsStarted + 1))

/-- Settling of the pending load promise: the code clears loadingPromise
before the promise resolves or rejects, and a successful load has installed
a database in the cache. -/
def settleStep (result : Option Nat) (now : Int) (st : FlightState) : FlightState :=
  match result with
  | some dbId => { st with loading := false, cached := some dbId, lastChecked := now }
  | none => { st with loading := false }

/-- A burst of n getDb calls with no intervening settle, returning the
final state and each callers outcome in order. -/
def arrivals (now revalidateMs : Int) (key : String) :
    Nat → FlightState → FlightState × List CallOutcome
  | 0, st => (st, [])
  | n + 1, st =>
    let p := getDbStep now revalidateMs key st
    let rest := arrivals now revalidateMs key n p.1
    (rest.1, p.2 :: rest.2)

/-! Helper lemmas. -/

theorem natToChars_length (fuel n : Nat) (acc : List Char) :
    acc.length < (natToChars (fuel + 1) n acc).length := by
  induction fuel generalizing n acc with
  | zero =>
    unfold natToChars
    split
    · simp
    · unfold natToChars
      simp
  | succ f ih =>
    unfold natToChars
    split
    · simp
    · exact Nat.lt_trans (by simp) (ih (n / 10) _)

theorem mk_ne_empty (cs : List Char) (h : cs ≠ []) : String.mk cs ≠ "" := by
  intro he
  exact h (congrArg String.data he)

theorem natToString_ne_empty (n : Nat) : natToString n ≠ "" := by
  apply mk_ne_empty
  intro h
  have h3 := natToChars_length n n []
  rw [h] at h3
  simp at h3

theorem intToString_ne_empty (n : Int) : intToString n ≠ "" := by
  unfold intToString
  split
  · exact mk_ne_empty _ (by simp)
  · apply mk_ne_empty
    intro h
    have h3 := natToChars_length n.toNat n.toNat []
    rw [h] at h3
    simp at h3

theorem jsToString_ne_empty_of_truthy (v : JsVal) (h : jsTruthy v = true) :
    jsToString v ≠ "" := by
  cases v with
  | undefined => simp [jsTruthy] at h
  | null => simp [jsTruthy] at h
  | num n => exact intToString_ne_empty n
  | str s =>
    simp only [jsTruthy, bne_iff_ne, ne_eq, decide_eq_true_eq] at h
    simpa [jsToString] using h

theorem utf8Bytes_ne_nil (c : Char) : utf8Bytes c ≠ [] := by
  unfold utf8Bytes utf8BytesOf
  split
  · simp
  · split
    · simp
    · split
      · simp
      · simp

theorem encodeChar_ne_nil (c : Char) : encodeChar c ≠ [] := by
  unfold encodeChar
  split
  · simp
  · cases hb : utf8Bytes c with
    | nil => exact absurd hb (utf8Bytes_ne_nil c)
    | cons b bs => simp [hb]

theorem encodeURIComponent_ne_empty (s : String) (h : s ≠ "") :
    encodeURIComponent s ≠ "" := by
  apply mk_ne_empty
  cases hs : s.data with
  | nil =>
    exfalso
    apply h
    have he : s = String.mk s.data := rfl
    rw [hs] at he
    exact he
  | cons c rest =>
    simp only [List.foldr_cons, ne_eq, List.append_eq_nil, not_and]
    intro hc
    exact absurd hc (encodeChar_ne_nil c)

theorem isortBy_cons {α : Type} (le : α → α → Bool) (y : α) (ys : List α) :
    isortBy le (y :: ys) = insertBy le y (isortBy le ys) := rfl

theorem length_insertBy {α : Type} (le : α → α → Bool) (x : α) (l : List α) :
    (insertBy le x l).length = l.length + 1 := by
  induction l with
  | nil => rfl
  | cons y ys ih =>
    unfold insertBy
    split
    · simp
    · simp [ih]

theorem length_isortBy {α : Type} (le : α → α → Bool) (l : List α) :
    (isortBy le l).length = l.length := by
  induction l with
  | nil => rfl
  | cons y ys ih => rw [isortBy_cons, length_insertBy, ih, List.length_cons]

theorem mem_insertBy {α : Type} (le : α → α → Bool) (x z : α) (l : List α) :
    z ∈ insertBy le x l ↔ z = x ∨ z ∈ l := by
  induction l with
  | nil => simp [insertBy]
  | cons y ys ih =>
    unfold insertBy
    split
    · simp [List.mem_cons]
    · simp only [List.mem_cons, ih]
      tauto

theorem mem_isortBy {α : Type} (le : α → α → Bool) (z : α) (l : List α) :
    z ∈ isortBy le l ↔ z ∈ l := by
  induction l with
  | nil => simp [isortBy]
  | cons y ys ih => rw [isortBy_cons, mem_insertBy, ih, List.mem_cons]

theorem pairwise_insertBy {α : Type} (le : α → α → Bool)
    (htot : ∀ a b, le a b = true ∨ le b a = true)
    (htrans : ∀ a b c, le a b = true → le b c = true → le a c = true)
    (x : α) : ∀ (l : List α), l.Pairwise (fun a b => le a b = true) →
      (insertBy le x l).Pairwise (fun a b => le a b = true) := by
  intro l
  induction l with
  | nil => intro _; simp [insertBy]
  | cons y ys ih =>
    intro h
    rcases h with _ | ⟨hy, hys⟩
    unfold insertBy
    split
    · rename_i hxy
      refine List.Pairwise.cons ?_ (List.Pairwise.cons hy hys)
      intro z hz
      rcases List.mem_cons.mp hz with rfl | hz2
      · exact hxy
      · exact htrans x y z hxy (hy z hz2)
    · rename_i hxy
      refine List.Pairwise.cons ?_ (ih hys)
      intro z hz
      rcases (mem_insertBy le x z ys).mp hz with rfl | hz2
      · rcases htot z y with h1 | h1
        · exact absurd h1 hxy
        · exact h1
      · exact hy z hz2

theorem pairwise_isortBy {α : Type} (le : α → α → Bool)
    (htot : ∀ a b, le a b = true ∨ le b a = true)
    (htrans : ∀ a b c, le a b = true → le b c = true → le a c = true)
    (l : List α) :
    (isortBy le l).Pairwise (fun a b => le a b = true) := by
  induction l with
  | nil => simp [isortBy]
  | cons y ys ih => rw [isortBy_cons]; exact pairwise_insertBy le htot htrans y _ ih

theorem isortBy_head_min {α : Type} (le : α → α → Bool)
    (htot : ∀ a b, le a b = true ∨ le b a = true)
    (htrans : ∀ a b c, le a b = true → le b c = true → le a c = true)
    (l : List α) (m : α) (hm : (isortBy le l).head? = some m) :
    m ∈ l ∧ ∀ x ∈ l, le m x = true := by
  cases hs : isortBy le l with
  | nil => rw [hs] at hm; simp at hm
  | cons a rest =>
    rw [hs] at hm
    simp only [List.head?_cons, Option.some.injEq] at hm
    have hma : m = a := hm.symm
    subst hma
    constructor
    · exact (mem_isortBy le m l).mp (by rw [hs]; exact List.mem_cons_self m rest)
    · intro x hx
      have hx2 : x ∈ m :: rest := by rw [← hs]; exact (mem_isortBy le x l).mpr hx
      rcases List.mem_cons.mp hx2 with rfl | hx3
      · rcases htot x x with h1 | h1 <;> exact h1
      · have hp := pairwise_isortBy le htot htrans l
        rw [hs] at hp
        rcases hp with _ | ⟨hhead, _⟩
        exact hhead x hx3

theorem charListLe_total (as bs : List Char) :
    charListLe as bs = true ∨ charListLe bs as = true := by
  induction as generalizing bs with
  | nil => exact Or.inl rfl
  | cons a as ih =>
    cases bs with
    | nil => exact Or.inr rfl
    | cons b bs =>
      unfold charListLe
      rcases Nat.lt_trichotomy a.toNat b.toNat with h | h | h
      · left
        rw [if_pos h]
      · rw [if_neg (by omega), if_neg (by omega), if_neg (by omega), if_neg (by omega)]
        exact ih bs
      · right
        rw [if_pos h]

theorem charListLe_trans (as bs cs : List Char) (h1 : charListLe as bs = true)
    (h2 : charListLe bs cs = true) : charListLe as cs = true := by
  induction as generalizing bs cs with
  | nil => rfl
  | cons a as ih =>
    cases bs with
    | nil => exact absurd h1 (by simp [charListLe])
    | cons b bs =>
      cases cs with
      | nil => exact absurd h2 (by simp [charListLe])
      | cons c cs =>
        unfold charListLe at h1 h2 ⊢
        rcases Nat.lt_trichotomy a.toNat b.toNat with hab | hab | hab
        · rcases Nat.lt_trichotomy b.toNat c.toNat with hbc | hbc | hbc
          · rw [if_pos (by omega)]
          · rw [if_pos (by omega)]
          · rw [if_neg (by omega), if_pos hbc] at h2
            exact absurd h2 (by simp)
        · rw [if_neg (by omega), if_neg (by omega)] at h1
          rcases Nat.lt_trichotomy b.toNat c.toNat with hbc | hbc | hbc
          · rw [if_pos (by omega)]
          · rw [if_neg (by omega), if_neg (by omega)] at h2
            rw [if_neg (by omega), if_neg (by omega)]
            exact ih bs cs h1 h2
          · rw [if_neg (by omega), if_pos hbc] at h2
            exact absurd h2 (by simp)
        · rw [if_neg (by omega), if_pos hab] at h1
          exact absurd h1 (by simp)

theorem strLe_total (a b : String) : strLe a b = true ∨ strLe b a = true :=
  charListLe_total a.data b.data

theorem strLe_trans (a b c : String) (h1 : strLe a b = true) (h2 : strLe b c = true) :
    strLe a c = true :=
  charListLe_trans a.data b.data c.data h1 h2

/-- The skill-name resolution chain of normalizeSkill, shared by the
identifier derivation. -/
def skillNameOf (row : Row) : JsVal :=
  jsOr (getField row "skill_name")
    (jsOr (getField row "skillName") (jsOr (getField row "name") (.str "")))

theorem identifier_def (row : Row) (index : Nat) :
    (normalizeSkill row index).identifier =
      (if getField row "id" != .undefined && getField row "id" != .null then
        jsToString (getField row "id")
      else if jsTruthy (skillNameOf row) then
        encodeURIComponent (jsToString (skillNameOf row))
      else natToString (index + 1)) := rfl

/-! Claims. -/

/-- A row carrying different truthy values under the snake_case and the
camelCase key of the fromRepo field. -/
def rowCamelFirst : Row :=
  [("from_repo", JsVal.str "snake"), ("fromRepo", JsVal.str "camel")]

/-- C1 counterexample: the claim predicts that every canonical field tries
the snake_case key first, so on rowCamelFirst the fromRepo field would
resolve to the value under from_repo; the code tries the camelCase key
fromRepo first and the two differ. -/
theorem fromRepo_not_snake_first :
    (normalizeSkill rowCamelFirst 0).fromRepo ≠
      resolveChain rowCamelFirst ["from_repo", "fromRepo"] (JsVal.str "") := by
  decide

/-- C1 (amended): every canonical field of normalizeSkill resolves through
a fixed key-precedence chain falling back to an empty or zero default, and
for most fields that chain is snake_case key, then camelCase key, then a
semantic alias; however fromRepo and skillPath try the camelCase key first
and then the snake_case key, and repostars tries the all-lowercase key,
then the camelCase key, then the alias stars. -/
theorem normalizeSkill_field_precedence (row : Row) (index : Nat) :
    (normalizeSkill row index).skill_name =
      resolveChain row ["skill_name", "skillName", "name"] (.str "") ∧
    (normalizeSkill row index).description_zh =
      resolveChain row ["description_zh", "descriptionZh", "description"] (.str "") ∧
    (normalizeSkill row index).description =
      resolveChain row ["description_zh", "descriptionZh", "description"] (.str "") ∧
    (normalizeSkill row index).description_en =
      resolveChain row ["description_en", "descriptionEn"] (.str "") ∧
    (normalizeSkill row index).use_case =
      resolveChain row ["use_case", "useCase"] (.str "") ∧
    (normalizeSkill row index).use_case_en =
      resolveChain row ["use_case_en", "useCaseEn"] (.str "") ∧
    (normalizeSkill row index).download_url =
      resolveChain row ["download_url", "downloadUrl"] (.str "") ∧
    (normalizeSkill row index).skill_md_content =
      resolveChain row ["skill_md_content", "skillMdContent"] (.str "") ∧
    (normalizeSkill row index).skill_md_content_translation =
      resolveChain row ["skill_md_content_translation", "skillMdContentTranslation"]
        (.str "") ∧
    (normalizeSkill row index).file_tree =
      resolveChain row ["file_tree", "fileTree"] (.str "") ∧
    (normalizeSkill row index).how_to_install =
      resolveChain row ["how_to_install", "howToInstall"] (.str "") ∧
    (normalizeSkill row index).created_at =
      resolveChain row ["created_at", "createdAt"] (.str "") ∧
    (normalizeSkill row index).updated_at =
      resolveChain row ["updated_at", "updatedAt"] (.str "") ∧
    (normalizeSkill row index).tagline = resolveChain row ["tagline"] (.str "") ∧
    (normalizeSkill row index).repostars =
      resolveChain row ["repostars", "repoStars", "stars"] (.num 0) ∧
    (normalizeSkill row index).tags = parseArrayValue (getField row "tags") ∧
    (normalizeSkill row index).tags_en =
      parseArrayValue (jsOr (getField row "tags_en") (getField row "tagsEn")) ∧
    (normalizeSkill row index).categories = parseArrayValue (getField row "categories") ∧
    (normalizeSkill row index).fromRepo =
      resolveChain row ["fromRepo", "from_repo"] (.str "") ∧
    (normalizeSkill row index).skillPath =
      resolveChain row ["skillPath", "skill_path"] (.str "") :=
  ⟨rfl, rfl, rfl, rfl, rfl, rfl, rfl, rfl, rfl, rfl, rfl, rfl, rfl, rfl, rfl, rfl, rfl,
    rfl, rfl, rfl⟩

/-- A row whose id column holds the empty string: present, neither null nor
undefined. -/
def rowEmptyId : Row := [("id", JsVal.str "")]

/-- C2 counterexample: the claim states the identifier is always a
non-empty string, but a present id equal to the empty string makes the
identifier the empty string. -/
theorem identifier_empty_for_empty_string_id :
    (normalizeSkill rowEmptyId 0).identifier = "" := by decide

/-- C2 (amended): the identifier is the JavaScript string conversion of id
when id is present (not null or undefined) — the decimal string when id is
an integer; otherwise the URL-safe encoding of the resolved skill name when
that is truthy; otherwise the decimal string of positionalIndex + 1. The
identifier is non-empty whenever a present id is not the empty string; in
particular it can be empty when id is the empty string. -/
theorem normalizeSkill_identifier_spec (row : Row) (index : Nat) :
    ((getField row "id" ≠ .undefined ∧ getField row "id" ≠ .null) →
      (normalizeSkill row index).identifier = jsToString (getField row "id")) ∧
    (∀ n : Int, getField row "id" = .num n →
      (normalizeSkill row index).identifier = intToString n) ∧
    ((getField row "id" = .undefined ∨ getField row "id" = .null) →
      jsTruthy (skillNameOf row) = true →
      (normalizeSkill row index).identifier =
        encodeURIComponent (jsToString (skillNameOf row))) ∧
    ((getField row "id" = .undefined ∨ getField row "id" = .null) →
      jsTruthy (skillNameOf row) = false →
      (normalizeSkill row index).identifier = natToString (index + 1)) ∧
    ((∀ s : String, getField row "id" = .str s → s ≠ "") →
      (normalizeSkill row index).identifier ≠ "") := by
  refine ⟨?_, ?_, ?_, ?_, ?_⟩
  · rintro ⟨hu, hn⟩
    rw [identifier_def, if_pos (by simp [bne_iff_ne, hu, hn])]
  · intro n hid
    rw [identifier_def, hid, if_pos (by simp [bne_iff_ne])]
    rfl
  · intro hor ht
    rcases hor with hid | hid <;>
      rw [identifier_def, hid, if_neg (by simp), if_pos ht]
  · intro hor ht
    rcases hor with hid | hid <;>
      rw [identifier_def, hid, if_neg (by simp), if_neg (by simp [ht])]
  · intro h
    rw [identifier_def]
    cases hid : getField row "id" with
    | undefined =>
      rw [if_neg (by simp)]
      cases ht : jsTruthy (skillNameOf row) with
      | true =>
        rw [if_pos rfl]
        exact encodeURIComponent_ne_empty _ (jsToString_ne_empty_of_truthy _ ht)
      | false =>
        rw [if_neg (by simp)]
        exact natToString_ne_empty (index + 1)
    | null =>
      rw [if_neg (by simp)]
      cases ht : jsTruthy (skillNameOf row) with
      | true =>
        rw [if_pos rfl]
        exact encodeURIComponent_ne_empty _ (jsToString_ne_empty_of_truthy _ ht)
      | false =>
        rw [if_neg (by simp)]
        exact natToString_ne_empty (index + 1)
    | num n =>
      rw [if_pos (by simp [bne_iff_ne])]
      exact intToString_ne_empty n
    | str s =>
      rw [if_pos (by simp [bne_iff_ne])]
      exact h s hid

/-- A row with no id and the skill name Foo Bar. -/
def rowFooBar : Row := [("skill_name", JsVal.str "Foo Bar")]

/-- C2 witness: on a concrete row with no id and skill name Foo Bar the
identifier is the URL-safe encoding of the skill name. -/
theorem normalizeSkill_identifier_spec_witness :
    (normalizeSkill rowFooBar 0).identifier = "Foo%20Bar" := by
  have h := (normalizeSkill_identifier_spec rowFooBar 0).2.2.1 (Or.inl rfl) (by decide)
  rw [h]
  decide

/-- A database whose only table has the empty string as its name, which
SQLite permits. -/
def dbEmptyName : Database := ⟨[("", [[("id", JsVal.num 1)]])]⟩

/-- C3 counterexample: the claim says a non-empty list of names without
skills or skill selects the lexicographically first remaining name, but the
code coerces names[0] through the logical-or with null, so the sole (and
lexicographically first) name that is the empty string reports no table
instead, and the load fails with the no-table error. -/
theorem selectFromNames_drops_empty_name :
    ([""] ≠ ([] : List String)) ∧
    selectFromNames [""] = none ∧
    (∀ (m : CacheMeta) (st : CacheState),
      buildDbFromBuffer dbEmptyName m st = .error .noTable) :=
  ⟨by decide, rfl, fun _ _ => rfl⟩

/-- C3 (amended): table discovery over the non-system table names prefers
the exact name skills, then skill; otherwise, for a non-empty list, the
lexicographically first remaining name is selected unless that name is the
empty string, which is falsy under the names[0]-or-null coercion and
reports no table; an empty list also reports no table, and in both no-table
situations the load fails with the no-table error; on the names skill,
misc, skills it selects skills. -/
theorem selectFromNames_spec (names : List String) :
    ("skills" ∈ names → selectFromNames names = some "skills") ∧
    ("skills" ∉ names → "skill" ∈ names → selectFromNames names = some "skill") ∧
    ("skills" ∉ names → "skill" ∉ names → names ≠ [] →
      ∃ m, m ∈ names ∧ (∀ x ∈ names, strLe m x = true) ∧
        selectFromNames names = (if m == "" then none else some m)) ∧
    (names = [] → selectFromNames names = none) ∧
    selectFromNames ["skill", "misc", "skills"] = some "skills" ∧
    (∀ (db : Database) (m : CacheMeta) (st : CacheState),
      nonSystemNames db = [] → buildDbFromBuffer db m st = .error .noTable) ∧
    (∀ (db : Database) (m : CacheMeta) (st : CacheState),
      selectTableName db = none → buildDbFromBuffer db m st = .error .noTable) := by
  have hcont : ∀ (a : String) (l : List String),
      (isortBy strLe l).contains a = true ↔ a ∈ l := by
    intro a l
    rw [List.elem_iff]
    exact mem_isortBy strLe a l
  refine ⟨?_, ?_, ?_, ?_, ?_, ?_, ?_⟩
  · intro h
    unfold selectFromNames
    rw [if_pos ((hcont "skills" names).mpr h)]
  · intro h1 h2
    unfold selectFromNames
    rw [if_neg (by rw [hcont]; exact h1), if_pos ((hcont "skill" names).mpr h2)]
  · intro h1 h2 h3
    cases hs : isortBy strLe names with
    | nil =>
      exfalso
      apply h3
      have hlen := length_isortBy strLe names
      rw [hs] at hlen
      exact List.length_eq_zero.mp hlen.symm
    | cons a rest =>
      have hmin := isortBy_head_min strLe strLe_total strLe_trans
        names a (by rw [hs]; rfl)
      refine ⟨a, hmin.1, hmin.2, ?_⟩
      unfold selectFromNames
      rw [if_neg (by rw [hcont]; exact h1), if_neg (by rw [hcont]; exact h2), hs]
      rfl
  · intro h
    subst h
    rfl
  · decide
  · intro db m st h
    unfold buildDbFromBuffer selectTableName
    rw [h]
    rfl
  · intro db m st h
    unfold buildDbFromBuffer
    rw [h]

/-- C3 witness: discovery on the table names skill, misc, skills selects
skills. -/
theorem selectFromNames_spec_witness :
    selectFromNames ["skill", "misc", "skills"] = some "skills" :=
  (selectFromNames_spec ["skill", "misc", "skills"]).1 (by decide)

/-- A small database with one skills table and one row. -/
def dbOne : Database := ⟨[("skills", [[("id", JsVal.num 1)]])]⟩

/-- Cache metadata recording a local source path with a known modification
time. -/
def metaLocal : CacheMeta :=
  { source := "/app/public/skill.db", etag := "", lastModified := "",
    lastChecked := 0, mtimeMs := 5 }

/-- A ready cache state holding dbOne for the local source. -/
def stLocalReady : CacheState :=
  { cachedDb := some dbOne, cachedTable := some "skills", meta := metaLocal }

/-- A file-system oracle where both stat and read fail. -/
def envStatFail : LocalEnv :=
  { statResult := .error (.ioError "ENOENT"), readResult := .error (.ioError "ENOENT") }

/-- C4 counterexample: the claim says a failing revalidation attempt, local
or remote, is absorbed whenever a previously loaded dataset exists for the
same source; but a local stat failure with a ready cache for the very same
path propagates the error instead of returning the cached dataset. -/
theorem loadLocalDb_propagates_despite_cache :
    stLocalReady.cachedDb.isSome = true ∧
    stLocalReady.meta.source = "/app/public/skill.db" ∧
    loadLocalDb envStatFail 100 stLocalReady "/app/public/skill.db" =
      .error (.ioError "ENOENT") :=
  ⟨rfl, rfl, rfl⟩

/-- C4 (amended): failures of the awaited remote revalidation while a
previously loaded dataset exists for the same URL are absorbed — the
attempt time is recorded, the validators and the cached dataset are
untouched, and the cached dataset is returned; with no prior dataset the
remote fetch error propagates. Two failure families escape the absorption:
rebuilding the dataset from a freshly downloaded buffer happens in a
promise returned without await, so a rebuild failure propagates despite the
cached dataset; and local loads have no try block at all, so a stat failure
propagates even when a prior dataset exists for the same path. -/
theorem load_failure_policy (env : RemoteEnv) (now : Int) (st : CacheState)
    (dbUrl : String) :
    (∀ db e, st.cachedDb = some db → st.meta.source = dbUrl →
      revalidateRemoteDb env.head env.condGet st.meta = .error e →
      loadRemoteDb env now st dbUrl =
        .ok (db, { st with meta := { st.meta with lastChecked := now } })) ∧
    (∀ db buf etag lm, st.cachedDb = some db → st.meta.source = dbUrl →
      revalidateRemoteDb env.head env.condGet st.meta = .ok (.fresh buf etag lm) →
      selectTableName buf = none →
      loadRemoteDb env now st dbUrl = .error .noTable) ∧
    (∀ e, st.cachedDb = none → env.plainGet = .error e →
      loadRemoteDb env now st dbUrl = .error e) ∧
    (∀ r, st.cachedDb = none → env.plainGet = .ok r → respOk r = false →
      loadRemoteDb env now st dbUrl = .error (.fetchFailed r.status)) ∧
    (∀ (lenv : LocalEnv) (path : String) (e : JsError), lenv.statResult = .error e →
      loadLocalDb lenv now st path = .error e) := by
  refine ⟨?_, ?_, ?_, ?_, ?_⟩
  · intro db e hdb hsrc hrev
    unfold loadRemoteDb
    rw [hdb]
    simp only [hsrc, beq_self_eq_true, if_true, hrev]
  · intro db buf etag lm hdb hsrc hrev hsel
    unfold loadRemoteDb
    rw [hdb]
    simp only [hsrc, beq_self_eq_true, if_true, hrev]
    unfold buildDbFromBuffer
    rw [hsel]
  · intro e hdb hget
    unfold loadRemoteDb
    rw [hdb]
    unfold remoteFresh
    rw [hget]
  · intro r hdb hget hok
    unfold loadRemoteDb
    rw [hdb]
    unfold remoteFresh
    rw [hget]
    simp [hok]
  · intro lenv path e hstat
    unfold loadLocalDb
    rw [hstat]

/-- Metadata with cached validators for a remote source. -/
def metaRemote : CacheMeta :=
  { source := "https://example.com/skill.db", etag := "e1", lastModified := "lm1",
    lastChecked := 0, mtimeMs := 0 }

/-- A ready cache state holding dbOne for the remote source. -/
def stRemoteReady : CacheState :=
  { cachedDb := some dbOne, cachedTable := some "skills", meta := metaRemote }

/-- A network oracle where the HEAD throws and both GETs throw. -/
def envNetFail : RemoteEnv :=
  { head := none, condGet := .error (.ioError "ECONNRESET"),
    plainGet := .error (.ioError "ECONNRESET") }

/-- C4 witness: a concrete remote revalidation failure (HEAD throws, the
conditional GET throws) over a ready cache for the same URL returns the
cached database and only advances lastChecked. -/
theorem load_failure_policy_witness :
    loadRemoteDb envNetFail 200 stRemoteReady "https://example.com/skill.db" =
      .ok (dbOne,
        { stRemoteReady with meta := { metaRemote with lastChecked := 200 } }) :=
  (load_failure_policy envNetFail 200 stRemoteReady "https://example.com/skill.db").1
    dbOne (.ioError "ECONNRESET") rfl rfl rfl

/-- C5: the remote revalidation protocol — a HEAD network failure falls
through to the GET step; a HEAD 304 reports not-modified echoing the
cached validators; a 2xx HEAD with a matching present validator reports
not-modified with the returned validators without consulting the GET at
all; a 2xx HEAD without a validator match falls through to the GET step;
and the GET step maps 304 to not-modified with the cached validators, a
non-2xx non-304 terminal response to the fetch-failed error, and a 2xx
response to the full body with the returned validators. -/
theorem revalidateRemoteDb_protocol (head : Option HttpResponse)
    (get : Except JsError HttpResponse) (meta : CacheMeta) :
    (revalidateRemoteDb none get meta = revalGetStep get meta) ∧
    (∀ h, head = some h → h.status = 304 →
      revalidateRemoteDb head get meta = .ok (.notModified meta.etag meta.lastModified)) ∧
    (∀ h, head = some h → respOk h = true → headValidatorMatch h meta = true →
      revalidateRemoteDb head get meta = .ok (.notModified h.etag h.lastModified) ∧
      ∀ get2, revalidateRemoteDb head get2 meta = revalidateRemoteDb head get meta) ∧
    (∀ h, head = some h → h.status ≠ 304 →
      (respOk h && headValidatorMatch h meta) = false →
      revalidateRemoteDb head get meta = revalGetStep get meta) ∧
    (∀ r, get = .ok r → r.status = 304 →
      revalGetStep get meta = .ok (.notModified meta.etag meta.lastModified)) ∧
    (∀ r, get = .ok r → r.status ≠ 304 → respOk r = false →
      revalGetStep get meta = .error (.fetchFailed r.status)) ∧
    (∀ r, get = .ok r → respOk r = true →
      revalGetStep get meta = .ok (.fresh r.body r.etag r.lastModified)) := by
  have hok304 : ∀ r : HttpResponse, respOk r = true → (r.status == 304) = false := by
    intro r h
    simp only [respOk, Bool.and_eq_true, decide_eq_true_eq] at h
    simp only [beq_eq_false_iff_ne, ne_eq]
    omega
  have hsome : ∀ (h : HttpResponse) (g : Except JsError HttpResponse),
      revalidateRemoteDb (some h) g meta =
        if h.status == 304 then .ok (.notModified meta.etag meta.lastModified)
        else if respOk h && headValidatorMatch h meta then
          .ok (.notModified h.etag h.lastModified)
        else revalGetStep g meta := by
    intro h g
    rfl
  have hstep : ∀ r : HttpResponse,
      revalGetStep (.ok r) meta =
        if r.status == 304 then .ok (.notModified meta.etag meta.lastModified)
        else if !respOk r then .error (.fetchFailed r.status)
        else .ok (.fresh r.body r.etag r.lastModified) := by
    intro r
    rfl
  refine ⟨rfl, ?_, ?_, ?_, ?_, ?_, ?_⟩
  · intro h hh h304
    subst hh
    rw [hsome, if_pos (by simp [h304])]
  · intro h hh hok hmatch
    subst hh
    constructor
    · rw [hsome, if_neg (by rw [hok304 h hok]; simp), if_pos (by rw [hok, hmatch]; rfl)]
    · intro get2
      rw [hsome, hsome, if_neg (by rw [hok304 h hok]; simp),
        if_pos (by rw [hok, hmatch]; rfl), if_neg (by rw [hok304 h hok]; simp),
        if_pos (by rw [hok, hmatch]; rfl)]
  · intro h hh h304 hcond
    subst hh
    rw [hsome, if_neg (by simp [h304]), if_neg (by rw [hcond]; simp)]
  · intro r hget h304
    subst hget
    rw [hstep, if_pos (by simp [h304])]
  · intro r hget h304 hok
    subst hget
    rw [hstep, if_neg (by simp [h304]), if_pos (by rw [hok]; rfl)]
  · intro r hget hok
    subst hget
    rw [hstep, if_neg (by rw [hok304 r hok]; simp), if_neg (by rw [hok]; simp)]

/-- C5 witness: a concrete HEAD 304 response reports not-modified echoing
the cached validators without touching the GET oracle. -/
theorem revalidateRemoteDb_protocol_witness :
    revalidateRemoteDb
      (some { status := 304, etag := "", lastModified := "", body := ⟨[]⟩ })
      (.error (.ioError "unused")) metaRemote =
    .ok (.notModified "e1" "lm1") :=
  (revalidateRemoteDb_protocol
    (some { status := 304, etag := "", lastModified := "", body := ⟨[]⟩ })
    (.error (.ioError "unused")) metaRemote).2.1
    { status := 304, etag := "", lastModified := "", body := ⟨[]⟩ } rfl rfl

theorem orderRows_length (sort : String) (rows : List Row) :
    (orderRows sort rows).length = rows.length := by
  unfold orderRows
  split
  · exact length_isortBy _ rows
  · split
    · exact length_isortBy _ rows
    · exact length_isortBy _ rows

/-- C6: every list query counts its total with the same WHERE predicate
that selects the page, so total is the number of all matching rows; the
returned page is the ordered matching rows after dropping
max 0 ((page - 1) * pageSize) rows and taking at most pageSize of them;
and over 25 matching rows, page 2 with page size 10 returns 10 items and
total 25. -/
theorem listSkills_pagination (db : Database) (ct : Option String) (q cat sort : String)
    (page pageSize : Int) (t : String) (ht : resolveTable ct db = some t)
    (hp : 0 < pageSize) :
    (listSkills db ct q cat page pageSize sort).total =
      ((tableRows db t).filter (matchesWhere q cat)).length ∧
    (listSkills db ct q cat page pageSize sort).items =
      ((((orderRows sort ((tableRows db t).filter (matchesWhere q cat))).drop
          (max 0 ((page - 1) * pageSize)).toNat).take pageSize.toNat).enum).map
        (fun p => normalizeSkill (projectRow listCols p.2) p.1) ∧
    (listSkills db ct q cat page pageSize sort).items.length ≤ pageSize.toNat ∧
    (((tableRows db t).filter (matchesWhere q cat)).length = 25 → page = 2 →
      pageSize = 10 →
      (listSkills db ct q cat page pageSize sort).items.length = 10 ∧
      (listSkills db ct q cat page pageSize sort).total = 25) := by
  have hmain : listSkills db ct q cat page pageSize sort =
      { items := ((sqlLimitOffset
            (orderRows sort ((tableRows db t).filter (matchesWhere q cat))) pageSize
            (max 0 ((page - 1) * pageSize))).enum).map
          (fun p => normalizeSkill (projectRow listCols p.2) p.1),
        total := ((tableRows db t).filter (matchesWhere q cat)).length,
        page := page, pageSize := pageSize } := by
    unfold listSkills
    rw [ht]
  have hlim : sqlLimitOffset
      (orderRows sort ((tableRows db t).filter (matchesWhere q cat))) pageSize
      (max 0 ((page - 1) * pageSize)) =
      (((orderRows sort ((tableRows db t).filter (matchesWhere q cat))).drop
        (max 0 ((page - 1) * pageSize)).toNat).take pageSize.toNat) := by
    unfold sqlLimitOffset
    rw [if_neg (by omega)]
  refine ⟨by rw [hmain], by rw [hmain, hlim], ?_, ?_⟩
  · rw [hmain, hlim]
    simp only [List.length_map, List.enum_length, List.length_take]
    exact Nat.min_le_left _ _
  · intro h25 hpage hsize
    subst hpage
    subst hsize
    constructor
    · rw [hmain, hlim]
      simp only [List.length_map, List.enum_length, List.length_take, List.length_drop,
        orderRows_length, h25]
      rfl
    · rw [hmain, h25]

/-- Twenty-five rows with distinct ids. -/
def rows25 : List Row := (List.range 25).map (fun i => [("id", JsVal.num (Int.ofNat i))])

/-- A database whose skills table holds rows25. -/
def db25 : Database := ⟨[("skills", rows25)]⟩

/-- C6 witness: the concrete 25-row dataset with page 2 and page size 10
yields 10 items and total 25. -/
theorem listSkills_pagination_witness :
    (listSkills db25 none "" "" 2 10 "latest").items.length = 10 ∧
    (listSkills db25 none "" "" 2 10 "latest").total = 25 :=
  (listSkills_pagination db25 none "" "" "latest" 2 10 "skills" rfl (by decide)).2.2.2
    (by decide) rfl rfl

/-- C7: getSkillByIdentifier URL-decodes its argument; a decoded string of
pure decimal digits routes to a lookup by numeric id equality, anything
else to a lookup by exact skill_name equality; at most one matching row is
taken (the head of the matches, as LIMIT 1), it is returned normalized, and
the result is the not-found signal when no row matches. -/
theorem getSkillByIdentifier_spec (db : Database) (ct : Option String) (t : String)
    (ht : resolveTable ct db = some t) (ident decoded : String)
    (hd : decodeURIComponent ident = some decoded) :
    (digitsOnly decoded = true →
      getSkillByIdentifier db ct ident =
        .ok ((((tableRows db t).filter
            (fun r => getField r "id" == .num (digitsToInt decoded))).head?).map
          (fun r => normalizeSkill r 0))) ∧
    (digitsOnly decoded = false →
      getSkillByIdentifier db ct ident =
        .ok ((((tableRows db t).filter
            (fun r => getField r "skill_name" == .str decoded)).head?).map
          (fun r => normalizeSkill r 0))) := by
  constructor
  · intro hdig
    unfold getSkillByIdentifier
    rw [ht, hd]
    simp only [hdig, if_true]
    cases ((tableRows db t).filter
        (fun r => getField r "id" == .num (digitsToInt decoded))).head? with
    | none => rfl
    | some r => rfl
  · intro hdig
    unfold getSkillByIdentifier
    rw [ht, hd]
    simp only [hdig, Bool.false_eq_true, if_false]
    cases ((tableRows db t).filter
        (fun r => getField r "skill_name" == .str decoded)).head? with
    | none => rfl
    | some r => rfl

/-- A one-row database for the C7 witness. -/
def dbAlpha : Database :=
  ⟨[("skills", [[("id", JsVal.num 7), ("skill_name", JsVal.str "alpha")]])]⟩

/-- C7 witness: looking up the identifier 7 in a concrete one-row database
routes through the numeric id branch and returns the row normalized. -/
theorem getSkillByIdentifier_spec_witness :
    getSkillByIdentifier dbAlpha none "7" =
      .ok (some (normalizeSkill [("id", JsVal.num 7), ("skill_name", JsVal.str "alpha")] 0)) := by
  have h := (getSkillByIdentifier_spec dbAlpha none "skills" rfl "7" "7" rfl).1 (by decide)
  rw [h]
  rfl

/-- C8: when no table resolves in the loaded dataset, listSkills returns
the empty result shape carrying the requested page and pageSize,
getSkillSummary returns the zero summary, and getSkillByIdentifier returns
the not-found signal; none of them throws. -/
theorem noTable_degrades (db : Database) (ct : Option String)
    (h : resolveTable ct db = none) (q cat sort : String) (page pageSize : Int)
    (ident : String) :
    listSkills db ct q cat page pageSize sort =
      { items := [], total := 0, page := page, pageSize := pageSize } ∧
    getSkillSummary db ct = { total := 0, counts := [] } ∧
    getSkillByIdentifier db ct ident = .ok none := by
  refine ⟨?_, ?_, ?_⟩
  · unfold listSkills
    rw [h]
  · unfold getSkillSummary
    rw [h]
  · unfold getSkillByIdentifier
    rw [h]

/-- The empty database. -/
def dbEmpty : Database := ⟨[]⟩

/-- C8 witness: the three operations degrade on the empty database. -/
theorem noTable_degrades_witness :
    listSkills dbEmpty none "x" "y" 1 16 "latest" =
      { items := [], total := 0, page := 1, pageSize := 16 } ∧
    getSkillSummary dbEmpty none = { total := 0, counts := [] } ∧
    getSkillByIdentifier dbEmpty none "7" = .ok none :=
  noTable_degrades dbEmpty none rfl "x" "y" "latest" 1 16 "7"

theorem arrivals_loading (now ms : Int) (key : String) (n : Nat) (st : FlightState)
    (hc : st.cached = none) (hl : st.loading = true) :
    arrivals now ms key n st = (st, List.replicate n (.awaitLoad st.loadsStarted)) := by
  induction n with
  | zero => rfl
  | succ k ih =>
    have hstep : getDbStep now ms key st = (st, .awaitLoad st.loadsStarted) := by
      unfold getDbStep
      rw [if_neg (by unfold needsCheck; rw [hc]; simp), if_pos hl]
    unfold arrivals
    rw [hstep]
    simp only [ih, List.replicate_succ]

/-- C9: single-flight loading — from an empty, non-loading cache, a burst
of n + 1 getDb calls starts exactly one underlying load, leaves the load
pending, and every caller awaits that same single load; moreover any call
arriving while a load is pending starts no new load and leaves the pending
flag set, so no second load starts before the first settles. -/
theorem getDb_single_flight (now ms : Int) (key : String) (st : FlightState)
    (n : Nat) (hc : st.cached = none) (hl : st.loading = false) :
    (arrivals now ms key (n + 1) st).1.loadsStarted = st.loadsStarted + 1 ∧
    (arrivals now ms key (n + 1) st).1.loading = true ∧
    (∀ o ∈ (arrivals now ms key (n + 1) st).2, o = .awaitLoad (st.loadsStarted + 1)) ∧
    (∀ s2 : FlightState, s2.loading = true →
      (getDbStep now ms key s2).1.loadsStarted = s2.loadsStarted ∧
      (getDbStep now ms key s2).1.loading = true) := by
  have hstep1 : getDbStep now ms key st =
      ({ st with loading := true, loadsStarted := st.loadsStarted + 1 },
        .awaitLoad (st.loadsStarted + 1)) := by
    unfold getDbStep
    rw [if_neg (by unfold needsCheck; rw [hc]; simp), if_neg (by simp [hl])]
  have hrest := arrivals_loading now ms key n
    ({ st with loading := true, loadsStarted := st.loadsStarted + 1 }) hc rfl
  have hall : arrivals now ms key (n + 1) st =
      ({ st with loading := true, loadsStarted := st.loadsStarted + 1 },
        .awaitLoad (st.loadsStarted + 1) ::
          List.replicate n (.awaitLoad (st.loadsStarted + 1))) := by
    unfold arrivals
    rw [hstep1]
    simp only [hrest]
  refine ⟨by rw [hall], by rw [hall], ?_, ?_⟩
  · intro o ho
    rw [hall] at ho
    rcases List.mem_cons.mp ho with rfl | ho2
    · rfl
    · exact List.eq_of_mem_replicate ho2
  · intro s2 hl2
    unfold getDbStep
    by_cases hfresh : (!needsCheck now ms key s2 && s2.cached.isSome) = true
    · rw [if_pos hfresh]
      exact ⟨rfl, hl2⟩
    · rw [if_neg hfresh, if_pos hl2]
      exact ⟨rfl, hl2⟩

/-- The empty initial cache state of the module. -/
def st0 : FlightState :=
  { cached := none, source := "", lastChecked := 0, loading := false, loadsStarted := 0 }

/-- C9 witness: three concurrent first calls against the empty state start
exactly one load and leave it pending. -/
theorem getDb_single_flight_witness :
    (arrivals 5 100 "k" 3 st0).1.loadsStarted = 1 ∧
    (arrivals 5 100 "k" 3 st0).1.loading = true :=
  ⟨(getDb_single_flight 5 100 "k" st0 2 rfl rfl).1,
    (getDb_single_flight 5 100 "k" st0 2 rfl rfl).2.1⟩

end SkillStore
